import Mathlib

/-!
# Shallow embedding of the `langer` language-selection state machine

This file embeds the `Langer` class and the `presetLanguage` locale
resolver of the `langer` TypeScript library (file `src/unnamed/part_002`)
and proves properties of the lifecycle state machine: the
invariant relating the current language to the available languages, the
failure behaviour of `initialize`/`update`/`speak`, the monotone lifecycle
flags, and the remember/reset dispatch through the injected recorder.

JavaScript truthiness matters for several code paths (`!this._says`,
`this._currLanguage || await this._recorder.get()`, `if (!found)`), so
optional fields are `Option` values and the truthiness tests are embedded
explicitly (`none` and the empty string / falsy payloads are falsy).
The recorder and the `navigator.languages` preference list are external
collaborators; they are embedded as an explicit environment threaded
through every operation, with flags to inject `get`/`set` failures.
Exceptions do not roll back field writes in JavaScript, so every
operation returns the (possibly mutated) state together with its
`Except` result.
-/

namespace Langer2Proof

/-- A JSON-ish translation payload; `truthy` mirrors JavaScript truthiness. -/
inductive Payload where
  | str : String → Payload
  | num : Int → Payload
  | bool : Bool → Payload
  | null : Payload
  | obj : List (String × Payload) → Payload

/-- JavaScript truthiness of a payload value. -/
def Payload.truthy : Payload → Bool
  | .str s => !(s == "")
  | .num n => !(n == 0)
  | .bool b => b
  | .null => false
  | .obj _ => true

/-- A translation dictionary: language key ↦ payload, in insertion order
(models a plain JS object; `Object.keys` is the first projection). -/
def Dict := List (String × Payload)

/-- `Object.keys(data)` of a dictionary. -/
def Dict.keys (d : Dict) : List String := d.map Prod.fst

/-- `data[language]`: property lookup on the dictionary object
(`none` models `undefined`). -/
def Dict.get (d : Dict) (language : String) : Option Payload :=
  List.lookup language d

/-- The error taxonomy of the library (each constructor corresponds to one
`throw new Error(...)` site; `message` below reproduces the exact strings). -/
inductive LangErr where
  /-- `initialize` called while `_initialized` is already true. -/
  | alreadyInitialized
  /-- accessor or operation used while the needed field is unset/falsy. -/
  | notReady
  /-- `internalUpdate` given a dictionary with no keys. -/
  | emptyDictionary
  /-- `speak` given a key missing from `_availableLanguages`. -/
  | languageUnavailable (language : String) (available : List String)
  /-- preset result missing from `_availableLanguages` in `resetLanguage`. -/
  | presetUnavailable (language : String) (available : List String)
  /-- the default `presetLanguage` resolver found no (truthy) match. -/
  | noMatch
  /-- `dispose` called twice. -/
  | alreadyDisposed
  /-- a JS `TypeError`: calling a method on a released (`undefined`) reference. -/
  | typeError
  /-- injected failure of `recorder.get()`. -/
  | recorderGetFailed
  /-- injected failure of `recorder.set(lang)`. -/
  | recorderSetFailed
deriving DecidableEq

/-- The message carried by each thrown `Error` (template literals render a
string array as its comma-joined elements). -/
def LangErr.message : LangErr → String
  | .alreadyInitialized => "[langer] Invalid operation. This has been initialized."
  | .notReady =>
      "[langer] Invalid operation. Not initialized yet, failed to initialize or has been disposed."
  | .emptyDictionary =>
      "[langer] Initialization failed. Unable to get the list of available languages."
  | .languageUnavailable language available =>
      "[langer] Cannot speak the \"" ++ language ++
        "\" language that are not on the available languages(" ++
        String.intercalate "," available ++ ")."
  | .presetUnavailable language available =>
      "[langer] The preset language \"" ++ language ++
        "\" is not on the available languages(" ++
        String.intercalate "," available ++ ")."
  | .noMatch =>
      "[langer] The presetLanguage function cannot preset the current language."
  | .alreadyDisposed => "[langer] Invalid operation. This has been disposed."
  | .typeError => "TypeError: reference has been released"
  | .recorderGetFailed => "recorder get failed"
  | .recorderSetFailed => "recorder set failed"

/-- `lang.split('-')[0]`: the text before the first `-` (the whole string
when it has no `-`). -/
def stripRegion (lang : String) : String :=
  String.mk (lang.data.takeWhile fun c => c != '-')

/-- The loop of `presetLanguage` (`priorities.some(...)` setting `found`):
the first priority matching exactly, else its region-stripped form if that
matches, else the next priority. -/
def presetLoop (availableLanguages : List String) : List String → Option String
  | [] => none
  | lang :: rest =>
      if availableLanguages.contains lang then some lang
      else
        if availableLanguages.contains (stripRegion lang) then
          some (stripRegion lang)
        else presetLoop availableLanguages rest

/-- `presetLanguage(availableLanguages, priorities)`: the default preset
resolver.  The final guard is `if (!found) throw ...`, a truthiness test,
so a found empty string is also rejected. -/
def presetLanguage (availableLanguages priorities : List String) :
    Except LangErr String :=
  match presetLoop availableLanguages priorities with
  | some found => if found == "" then .error .noMatch else .ok found
  | none => .error .noMatch

/-- The `Preset` option: a fixed language key or a resolver
`(availableLanguages, navigatorLanguages) → language`. -/
inductive Preset where
  | fixed : String → Preset
  | resolver : (List String → List String → Except LangErr String) → Preset

/-- The default preset option: the `presetLanguage` resolver. -/
def defaultPreset : Preset := .resolver fun avail nav => presetLanguage avail nav

/-- The external world: the recorder's backing store (e.g. localStorage) and
the `navigator.languages` preference list, plus failure-injection flags for
the recorder. -/
structure Env where
  store : Option String
  getFails : Bool
  setFails : Bool
  nav : List String

/-- The fields of a `Langer` instance.  `none` models `undefined`;
`hasRecorder` records whether `_recorder` still references the recorder
(dispose replaces it by `undefined`). -/
structure Langer where
  saysVal : Option Payload
  data : Option Dict
  availableLanguages : Option (List String)
  currLanguage : Option String
  hasRecorder : Bool
  preset : Option Preset
  initialized : Bool
  disposed : Bool

/-- `new Langer(options)`: stores the (default or given) recorder and preset,
everything else `undefined`/false. -/
def mkLanger (preset : Preset) : Langer :=
  { saysVal := none, data := none, availableLanguages := none,
    currLanguage := none, hasRecorder := true, preset := some preset,
    initialized := false, disposed := false }

/-- `changeSays(language)`: sets `_currLanguage`, awaits
`_recorder.set(language)`, then sets `_says = _data[language]`.  A failing
`set` propagates with `_currLanguage` already written and `_says` untouched. -/
def changeSays (l : Langer) (e : Env) (language : String) :
    Except LangErr Unit × Langer × Env :=
  if l.hasRecorder then
    if e.setFails then
      (.error .recorderSetFailed, { l with currLanguage := some language }, e)
    else
      match l.data with
      | some d =>
          (.ok (),
            { l with currLanguage := some language, saysVal := d.get language },
            { e with store := some language })
      | none =>
          (.error .typeError, { l with currLanguage := some language },
            { e with store := some language })
  else (.error .typeError, { l with currLanguage := some language }, e)

/-- `typeof this._preset === 'string' ? this._preset : await
this._preset(availableLanguages, navigator.languages)` — a released
(`undefined`) preset is not a string and is not callable. -/
def resolvePreset (preset : Option Preset) (avail nav : List String) :
    Except LangErr String :=
  match preset with
  | none => .error .typeError
  | some (.fixed s) => .ok s
  | some (.resolver f) => f avail nav

/-- `resetLanguage()`: guard on `_availableLanguages`, resolve the preset
(fixed string or resolver on `navigator.languages`), require the result to
be available, then `changeSays` and return the resolved key. -/
def resetLanguage (l : Langer) (e : Env) :
    Except LangErr String × Langer × Env :=
  match l.availableLanguages with
  | none => (.error .notReady, l, e)
  | some avail =>
      match resolvePreset l.preset avail e.nav with
      | .error err => (.error err, l, e)
      | .ok lang =>
          if avail.contains lang then
            match changeSays l e lang with
            | (.ok _, l2, e2) => (.ok lang, l2, e2)
            | (.error err, l2, e2) => (.error err, l2, e2)
          else (.error (.presetUnavailable lang avail), l, e)

/-- `await this.resetLanguage()` with the returned key discarded (the two
call sites inside `internalUpdate`). -/
def resetDrop (l : Langer) (e : Env) : Except LangErr Unit × Langer × Env :=
  match resetLanguage l e with
  | (.ok _, l2, e2) => (.ok (), l2, e2)
  | (.error err, l2, e2) => (.error err, l2, e2)

/-- `const lang = await this._recorder.get(); if (lang) changeSays(lang)
else resetLanguage()` — the tail of `internalUpdate` when `_currLanguage`
is falsy (a stored `null`/empty string is falsy and falls back to reset). -/
def recordedOrReset (l : Langer) (e : Env) :
    Except LangErr Unit × Langer × Env :=
  if l.hasRecorder then
    if e.getFails then (.error .recorderGetFailed, l, e)
    else
      match e.store with
      | some s => if s == "" then resetDrop l e else changeSays l e s
      | none => resetDrop l e
  else (.error .typeError, l, e)

/-- The state after `this._data = data; this.setAvailableLanguages(Object.keys(this._data))`. -/
def withData (l : Langer) (data : Dict) : Langer :=
  { l with data := some data, availableLanguages := some data.keys }

/-- `internalUpdate(data, reset)`: stores the dictionary reference *first*,
rejects an empty key list (before `setAvailableLanguages`), stores the key
list, then dispatches on `reset` and on the truthiness of `_currLanguage`
(`this._currLanguage || (await this._recorder.get())`). -/
def internalUpdate (l : Langer) (e : Env) (data : Dict) (reset : Bool) :
    Except LangErr Unit × Langer × Env :=
  if data.keys.isEmpty then
    (.error .emptyDictionary, { l with data := some data }, e)
  else
    if reset then resetDrop (withData l data) e
    else
      match l.currLanguage with
      | some s =>
          if s == "" then recordedOrReset (withData l data) e
          else changeSays (withData l data) e s
      | none => recordedOrReset (withData l data) e

/-- `initialize(data, reset = false)`: rejects a second initialization,
otherwise `internalUpdate` and only then `_initialized = true`. -/
def initializeFn (l : Langer) (e : Env) (data : Dict) (reset : Bool) :
    Except LangErr Unit × Langer × Env :=
  if l.initialized then (.error .alreadyInitialized, l, e)
  else
    match internalUpdate l e data reset with
    | (.ok _, l2, e2) => (.ok (), { l2 with initialized := true }, e2)
    | (.error err, l2, e2) => (.error err, l2, e2)

/-- `update(data, reset = false)`: requires initialized and not disposed,
then the same `internalUpdate` machinery. -/
def update (l : Langer) (e : Env) (data : Dict) (reset : Bool) :
    Except LangErr Unit × Langer × Env :=
  if !l.initialized || l.disposed then (.error .notReady, l, e)
  else internalUpdate l e data reset

/-- `speak(language)`: guard on `_availableLanguages`, reject an
unavailable key (message listing the available keys), else `changeSays`. -/
def speak (l : Langer) (e : Env) (language : String) :
    Except LangErr Unit × Langer × Env :=
  match l.availableLanguages with
  | none => (.error .notReady, l, e)
  | some avail =>
      if avail.contains language then changeSays l e language
      else (.error (.languageUnavailable language avail), l, e)

/-- `dispose()`: rejects a second dispose, else releases every reference
and sets `_disposed` (note: `_initialized` is left as it is). -/
def dispose (l : Langer) : Except LangErr Unit × Langer :=
  if l.disposed then (.error .alreadyDisposed, l)
  else
    (.ok (),
      { saysVal := none, data := none, availableLanguages := none,
        currLanguage := none, hasRecorder := false, preset := none,
        initialized := l.initialized, disposed := true })

/-- The `availableLanguages` getter (an array is always truthy, so only
`undefined` fails). -/
def availableLanguagesGet (l : Langer) : Except LangErr (List String) :=
  match l.availableLanguages with
  | none => .error .notReady
  | some a => .ok a

/-- The `speaking` getter (`!this._currLanguage`: `undefined` and the empty
string are falsy). -/
def speaking (l : Langer) : Except LangErr String :=
  match l.currLanguage with
  | none => .error .notReady
  | some s => if s == "" then .error .notReady else .ok s

/-- The `says` getter (`!this._says`: `undefined` and falsy payloads fail). -/
def saysGet (l : Langer) : Except LangErr Payload :=
  match l.saysVal with
  | none => .error .notReady
  | some p => if p.truthy then .ok p else .error .notReady

/-! ## Concrete fixtures used by counterexamples and witnesses -/

deriving instance DecidableEq for Except

/-- English payload of the example dictionaries. -/
def pEn : Payload := .str "English"
/-- Chinese payload of the example dictionaries. -/
def pZh : Payload := .str "Chinese"
/-- Dictionary with the single key `zh`. -/
def dZh : Dict := [("zh", pZh)]
/-- Dictionary with the single key `en`. -/
def dEn : Dict := [("en", pEn)]
/-- Dictionary with keys `en` and `zh`. -/
def dEnZh : Dict := [("en", pEn), ("zh", pZh)]
/-- Environment with an empty store, a working recorder and `zh`-first
browser preferences. -/
def env0 : Env :=
  { store := none, getFails := false, setFails := false, nav := ["zh"] }

/-! ## The default preset resolver (claim C5) -/

/-- The resolver behaviour as the specification words it: the first
preference whose exact form — or, failing that, whose region-stripped
form — is an available key, tried strictly in order, mapped to the
matching form. -/
def specFirstMatch (avail prios : List String) : Option String :=
  (prios.find? fun p => avail.contains p || avail.contains (stripRegion p)).map
    fun p => if avail.contains p then p else stripRegion p

lemma presetLoop_eq_spec (avail : List String) :
    ∀ prios, presetLoop avail prios = specFirstMatch avail prios := by
  intro prios
  induction prios with
  | nil => rfl
  | cons p rest ih =>
      by_cases h1 : p ∈ avail
      · simp [presetLoop, specFirstMatch, List.find?, h1]
      · by_cases h2 : stripRegion p ∈ avail
        · simp [presetLoop, specFirstMatch, List.find?, h1, h2]
        · simpa [presetLoop, specFirstMatch, List.find?, h1, h2] using ih

/-- C5 (amended): `presetLanguage` is the pure function returning, for the
first preference whose exact or region-stripped form is an available key,
that matching form — except that a matched empty string is falsy and is
reported as no match — and it fails with the no-match error otherwise; on
the spec's three example inputs it returns `en`, returns `zh`, and fails. -/
theorem C5_presetLanguage_spec :
    (∀ avail prios, presetLanguage avail prios =
      match specFirstMatch avail prios with
      | some found => if found == "" then .error .noMatch else .ok found
      | none => .error .noMatch) ∧
    presetLanguage ["en", "zh"] ["en-US", "en", "zh-TW", "zh"] = .ok "en" ∧
    presetLanguage ["en", "zh"] ["zh"] = .ok "zh" ∧
    presetLanguage ["en", "zh"] ["ja"] = .error .noMatch := by
  refine ⟨fun avail prios => ?_, rfl, rfl, rfl⟩
  rw [presetLanguage, presetLoop_eq_spec]

/-- C5 counterexample: the empty string is an available key and the first
preference matches it exactly, yet `presetLanguage` fails with the
no-match error (the `if (!found)` guard treats the empty string as not
found), so the resolver does not always return the first exact match. -/
theorem C5_counterexample :
    (([""] : List String).contains "" = true) ∧
    presetLanguage [""] [""] = Except.error LangErr.noMatch :=
  ⟨rfl, rfl⟩

/-! ## Unavailable `speak` (claim C7) and falsy `says` (claim C9) -/

/-- C7: on an initialized, non-disposed instance, `speak` of a key not in
the available languages fails with the language-unavailable error — whose
message enumerates the currently available keys — and returns the instance
and environment completely unchanged (the error is raised before any
mutation). -/
theorem C7_speak_unavailable (l : Langer) (e : Env) (k : String)
    (avail : List String)
    (_hinit : l.initialized = true) (_hdisp : l.disposed = false)
    (ha : l.availableLanguages = some avail) (hk : k ∉ avail) :
    speak l e k = (.error (.languageUnavailable k avail), l, e) ∧
    LangErr.message (.languageUnavailable k avail) =
      "[langer] Cannot speak the \"" ++ k ++
        "\" language that are not on the available languages(" ++
        String.intercalate "," avail ++ ")." := by
  refine ⟨?_, rfl⟩
  unfold speak
  rw [ha]
  simp [hk]

/-- State of a fresh default instance initialized with the `en`/`zh`
dictionary in an environment with nothing remembered (it speaks `zh` via
the default resolver on the `zh`-first preferences). -/
def lEnZh : Langer := (initializeFn (mkLanger defaultPreset) env0 dEnZh false).2.1

theorem C7_speak_unavailable_witness :
    speak lEnZh env0 "ja" =
      (.error (.languageUnavailable "ja" ["en", "zh"]), lEnZh, env0) ∧
    LangErr.message (.languageUnavailable "ja" ["en", "zh"]) =
      "[langer] Cannot speak the \"" ++ "ja" ++
        "\" language that are not on the available languages(" ++
        String.intercalate "," ["en", "zh"] ++ ")." :=
  C7_speak_unavailable lEnZh env0 "ja" ["en", "zh"] rfl rfl rfl (by decide)

/-- C9: on an initialized, non-disposed instance whose stored translation
payload is a falsy value (empty string, `0`, `false` or `null`), the
`says` getter fails with the not-ready error instead of returning the
payload, because the getter tests `!this._says` (truthiness), not the
lifecycle flags. -/
theorem C9_says_falsy (l : Langer) (p : Payload)
    (_hinit : l.initialized = true) (_hdisp : l.disposed = false)
    (hp : l.saysVal = some p) (hf : p.truthy = false) :
    saysGet l = .error .notReady := by
  unfold saysGet
  rw [hp]
  simp [hf]

/-- State of a fresh instance with fixed preset `en` initialized with a
dictionary mapping `en` to the empty string (a falsy payload). -/
def lEmptySays : Langer :=
  (initializeFn (mkLanger (.fixed "en")) env0 [("en", .str "")] false).2.1

theorem C9_says_falsy_witness :
    saysGet lEmptySays = .error .notReady :=
  C9_says_falsy lEmptySays (.str "") rfl rfl rfl rfl

/-! ## Behaviour of `changeSays` (claim C2) -/

lemma changeSays_eq_ok {l : Langer} {e : Env} {d : Dict} (k : String)
    (hr : l.hasRecorder = true) (hs : e.setFails = false)
    (hd : l.data = some d) :
    changeSays l e k =
      (.ok (), { l with currLanguage := some k, saysVal := d.get k },
        { e with store := some k }) := by
  unfold changeSays
  simp [hr, hs, hd]

lemma changeSays_eq_setFail {l : Langer} {e : Env} (k : String)
    (hr : l.hasRecorder = true) (hs : e.setFails = true) :
    changeSays l e k =
      (.error .recorderSetFailed, { l with currLanguage := some k }, e) := by
  unfold changeSays
  simp [hr, hs]

lemma changeSays_ok_inv {l : Langer} {e : Env} {k : String} {u : Unit}
    {l2 : Langer} {e2 : Env}
    (h : changeSays l e k = (.ok u, l2, e2)) :
    l.hasRecorder = true ∧ e.setFails = false ∧
    ∃ d, l.data = some d ∧
      l2 = { l with currLanguage := some k, saysVal := d.get k } ∧
      e2 = { e with store := some k } := by
  unfold changeSays at h
  split at h
  next hr =>
    split at h
    next => exact Except.noConfusion (congrArg Prod.fst h)
    next hs =>
      split at h
      next d hd =>
        injection h with h1 h2
        injection h2 with h2 h3
        exact ⟨hr, by simpa using hs, d, hd, h2.symm, h3.symm⟩
      next => exact Except.noConfusion (congrArg Prod.fst h)
  next => exact Except.noConfusion (congrArg Prod.fst h)

lemma speak_ok_inv {l : Langer} {e : Env} {k : String} {u : Unit}
    {l2 : Langer} {e2 : Env}
    (h : speak l e k = (.ok u, l2, e2)) :
    ∃ avail, l.availableLanguages = some avail ∧ k ∈ avail ∧
      changeSays l e k = (.ok u, l2, e2) := by
  unfold speak at h
  split at h
  next => exact Except.noConfusion (congrArg Prod.fst h)
  next avail ha =>
      by_cases hk : k ∈ avail
      · exact ⟨avail, ha, hk, by simpa [hk] using h⟩
      · rw [if_neg (by simpa using hk)] at h
        exact Except.noConfusion (congrArg Prod.fst h)

/-- C2 (amended): a successful `speak` returns with CurrentLanguage and
ActiveTranslations both switched to the new key (the caller observes no
intermediate state) and with the persistence write performed; but when the
persistence write fails, the error propagates with CurrentLanguage already
switched while ActiveTranslations still holds the previous payload — the
in-memory state is only partially, not fully, switched. -/
theorem C2_changeSays_policy :
    (∀ (l : Langer) (e : Env) (k : String) (u : Unit) (l2 : Langer) (e2 : Env),
      speak l e k = (.ok u, l2, e2) →
      l2.currLanguage = some k ∧ e2.store = some k ∧
      ∀ d, l.data = some d → l2.saysVal = d.get k) ∧
    (∀ (l : Langer) (e : Env) (k : String) (avail : List String),
      l.availableLanguages = some avail → k ∈ avail →
      l.hasRecorder = true → e.setFails = true →
      speak l e k =
        (.error .recorderSetFailed, { l with currLanguage := some k }, e)) := by
  constructor
  · intro l e k u l2 e2 h
    obtain ⟨avail, _, _, hcs⟩ := speak_ok_inv h
    obtain ⟨_, _, d, hd, hl2, he2⟩ := changeSays_ok_inv hcs
    subst hl2; subst he2
    refine ⟨rfl, rfl, fun d2 hd2 => ?_⟩
    rw [hd2] at hd
    cases hd
    rfl
  · intro l e k avail ha hk hr hs
    unfold speak
    split
    next h0 => simp [ha] at h0
    next avail2 h0 =>
        have h1 : some avail = some avail2 := ha.symm.trans h0
        injection h1 with h1
        subst h1
        rw [if_pos (by simpa using hk)]
        exact changeSays_eq_setFail k hr hs

theorem C2_changeSays_policy_witness :
    speak lEnZh { env0 with setFails := true } "en" =
      (.error .recorderSetFailed, { lEnZh with currLanguage := some "en" },
        { env0 with setFails := true }) :=
  C2_changeSays_policy.2 lEnZh { env0 with setFails := true } "en"
    ["en", "zh"] rfl (by decide) rfl rfl

/-- Result of `speak("en")` on the `zh`-speaking instance when the
recorder's `set` fails. -/
def c2Res : Except LangErr Unit × Langer × Env :=
  speak lEnZh { env0 with setFails := true } "en"

/-- C2 counterexample: on the `zh`-speaking instance, `speak("en")` with a
failing persistence write propagates the failure with CurrentLanguage
already `en` but ActiveTranslations still the `zh` payload — not the `en`
payload the dictionary holds — so the in-memory state is not "already
fully switched to the new language" as the claim states. -/
theorem C2_counterexample :
    c2Res.1 = .error .recorderSetFailed ∧
    c2Res.2.1.currLanguage = some "en" ∧
    c2Res.2.1.saysVal = some pZh ∧
    dEnZh.get "en" = some pEn ∧
    c2Res.2.1.saysVal ≠ dEnZh.get "en" := by
  refine ⟨rfl, rfl, rfl, rfl, ?_⟩
  intro h
  have h1 : Payload.str "Chinese" = Payload.str "English" := Option.some.inj h
  have h2 : "Chinese" = "English" := by injection h1
  exact absurd h2 (by decide)

/-! ## Inversion and rewriting lemmas for the update machinery -/

lemma resetLanguage_ok_inv {l : Langer} {e : Env} {s : String}
    {l2 : Langer} {e2 : Env}
    (h : resetLanguage l e = (.ok s, l2, e2)) :
    ∃ avail, l.availableLanguages = some avail ∧ s ∈ avail ∧
      changeSays l e s = (.ok (), l2, e2) := by
  unfold resetLanguage at h
  split at h
  next => exact Except.noConfusion (congrArg Prod.fst h)
  next avail ha =>
    split at h
    next => exact Except.noConfusion (congrArg Prod.fst h)
    next lang hres =>
      split at h
      next hmem =>
        split at h
        next u l3 e3 hcs =>
          injection h with h1 h2
          injection h2 with h2 h3
          injection h1 with h1
          subst h1; subst h2; subst h3
          cases u
          exact ⟨avail, ha, by simpa using hmem, hcs⟩
        next => exact Except.noConfusion (congrArg Prod.fst h)
      next => exact Except.noConfusion (congrArg Prod.fst h)

lemma resetDrop_ok_inv {l : Langer} {e : Env} {u : Unit}
    {l2 : Langer} {e2 : Env}
    (h : resetDrop l e = (.ok u, l2, e2)) :
    ∃ s, resetLanguage l e = (.ok s, l2, e2) := by
  unfold resetDrop at h
  split at h
  next s l3 e3 heq =>
    injection h with h1 h2
    injection h2 with h2 h3
    subst h2; subst h3
    exact ⟨s, heq⟩
  next => exact Except.noConfusion (congrArg Prod.fst h)

lemma recordedOrReset_ok_inv {l : Langer} {e : Env} {u : Unit}
    {l2 : Langer} {e2 : Env}
    (h : recordedOrReset l e = (.ok u, l2, e2)) :
    (∃ s, e.store = some s ∧ changeSays l e s = (.ok u, l2, e2)) ∨
    (∃ s, resetLanguage l e = (.ok s, l2, e2)) := by
  unfold recordedOrReset at h
  split at h
  next =>
    split at h
    next => exact Except.noConfusion (congrArg Prod.fst h)
    next =>
      split at h
      next s hs =>
        split at h
        next => exact Or.inr (resetDrop_ok_inv h)
        next => exact Or.inl ⟨s, hs, h⟩
      next => exact Or.inr (resetDrop_ok_inv h)
  next => exact Except.noConfusion (congrArg Prod.fst h)

lemma internalUpdate_eq_empty {l : Langer} {e : Env} {d : Dict} {r : Bool}
    (hne : d.keys.isEmpty = true) :
    internalUpdate l e d r =
      (.error .emptyDictionary, { l with data := some d }, e) := by
  unfold internalUpdate
  rw [if_pos hne]

lemma internalUpdate_eq_reset {l : Langer} {e : Env} {d : Dict}
    (hne : d.keys.isEmpty = false) :
    internalUpdate l e d true = resetDrop (withData l d) e := by
  unfold internalUpdate
  rw [if_neg (by simp [hne]), if_pos rfl]

lemma internalUpdate_eq_curr {l : Langer} {e : Env} {d : Dict} {s : String}
    (hne : d.keys.isEmpty = false) (hcur : l.currLanguage = some s)
    (hs : (s == "") = false) :
    internalUpdate l e d false = changeSays (withData l d) e s := by
  unfold internalUpdate
  rw [if_neg (by simp [hne]), if_neg (by simp), hcur]
  simp [hs]

lemma internalUpdate_eq_recorded {l : Langer} {e : Env} {d : Dict}
    (hne : d.keys.isEmpty = false) (hcur : l.currLanguage = none) :
    internalUpdate l e d false = recordedOrReset (withData l d) e := by
  unfold internalUpdate
  rw [if_neg (by simp [hne]), if_neg (by simp), hcur]

lemma internalUpdate_ok_inv {l : Langer} {e : Env} {d : Dict} {r : Bool}
    {u : Unit} {l2 : Langer} {e2 : Env}
    (h : internalUpdate l e d r = (.ok u, l2, e2)) :
    d.keys.isEmpty = false ∧
    ((∃ s, resetLanguage (withData l d) e = (.ok s, l2, e2)) ∨
     (r = false ∧ ∃ s, l.currLanguage = some s ∧
        changeSays (withData l d) e s = (.ok u, l2, e2)) ∨
     (r = false ∧ ∃ s, e.store = some s ∧
        changeSays (withData l d) e s = (.ok u, l2, e2))) := by
  unfold internalUpdate at h
  split at h
  next => exact Except.noConfusion (congrArg Prod.fst h)
  next hne =>
    refine ⟨by simpa using hne, ?_⟩
    split at h
    next hr =>
      exact Or.inl (resetDrop_ok_inv h)
    next hr =>
      have hr0 : r = false := by simpa using hr
      split at h
      next s hcur =>
        split at h
        next =>
          rcases recordedOrReset_ok_inv h with ⟨t, ht, hcs⟩ | hreset
          · exact Or.inr (Or.inr ⟨hr0, t, ht, hcs⟩)
          · exact Or.inl hreset
        next => exact Or.inr (Or.inl ⟨hr0, s, hcur, h⟩)
      next hcur =>
        rcases recordedOrReset_ok_inv h with ⟨t, ht, hcs⟩ | hreset
        · exact Or.inr (Or.inr ⟨hr0, t, ht, hcs⟩)
        · exact Or.inl hreset

lemma update_ok_inv {l : Langer} {e : Env} {d : Dict} {r : Bool}
    {u : Unit} {l2 : Langer} {e2 : Env}
    (h : update l e d r = (.ok u, l2, e2)) :
    l.initialized = true ∧ l.disposed = false ∧
    internalUpdate l e d r = (.ok u, l2, e2) := by
  unfold update at h
  split at h
  next => exact Except.noConfusion (congrArg Prod.fst h)
  next hg =>
    have hg2 : l.initialized = true ∧ l.disposed = false := by
      constructor
      · by_contra hi
        exact hg (by simp [Bool.not_eq_true] at hi ⊢; simp [hi])
      · by_contra hd
        exact hg (by simp [Bool.not_eq_true] at hd ⊢; simp [hd])
    exact ⟨hg2.1, hg2.2, h⟩

lemma initializeFn_ok_inv {l : Langer} {e : Env} {d : Dict} {r : Bool}
    {u : Unit} {l2 : Langer} {e2 : Env}
    (h : initializeFn l e d r = (.ok u, l2, e2)) :
    l.initialized = false ∧
    ∃ l3, internalUpdate l e d r = (.ok (), l3, e2) ∧
      l2 = { l3 with initialized := true } := by
  unfold initializeFn at h
  split at h
  next => exact Except.noConfusion (congrArg Prod.fst h)
  next hinit =>
    split at h
    next u3 l3 e3 heq =>
      injection h with h1 h2
      injection h2 with h2 h3
      subst h3
      cases u3
      exact ⟨by simpa using hinit, l3, heq, h2.symm⟩
    next => exact Except.noConfusion (congrArg Prod.fst h)

lemma availableLanguagesGet_eq {l : Langer} {a : List String}
    (ha : l.availableLanguages = some a) : availableLanguagesGet l = .ok a := by
  unfold availableLanguagesGet
  rw [ha]

lemma speaking_eq {l : Langer} {s : String}
    (hc : l.currLanguage = some s) (hs : (s == "") = false) :
    speaking l = .ok s := by
  unfold speaking
  rw [hc]
  simp [hs]

lemma saysGet_none {l : Langer} (h : l.saysVal = none) :
    saysGet l = .error .notReady := by
  unfold saysGet
  rw [h]

lemma keys_ne_empty {d : Dict} {k : String} (hk : k ∈ d.keys) :
    d.keys.isEmpty = false := by
  cases hl : d.keys with
  | nil => rw [hl] at hk; cases hk
  | cons a as => rfl

lemma speak_eq_ok {l : Langer} {e : Env} {k : String} {avail : List String}
    {d : Dict}
    (ha : l.availableLanguages = some avail) (hk : k ∈ avail)
    (hr : l.hasRecorder = true) (hs : e.setFails = false)
    (hd : l.data = some d) :
    speak l e k =
      (.ok (), { l with currLanguage := some k, saysVal := d.get k },
        { e with store := some k }) := by
  unfold speak
  split
  next h0 => exact Option.noConfusion (ha.symm.trans h0)
  next avail2 h0 =>
    have h1 : avail = avail2 := by
      have h2 := ha.symm.trans h0
      injection h2
    subst h1
    rw [if_pos (by simpa using hk)]
    exact changeSays_eq_ok k hr hs hd

/-! ## Field preservation (used for the lifecycle-flag claims) -/

lemma changeSays_preserves (l : Langer) (e : Env) (k : String) :
    (changeSays l e k).2.1.initialized = l.initialized ∧
    (changeSays l e k).2.1.disposed = l.disposed ∧
    (changeSays l e k).2.1.availableLanguages = l.availableLanguages ∧
    (changeSays l e k).2.1.data = l.data ∧
    (changeSays l e k).2.1.hasRecorder = l.hasRecorder ∧
    (changeSays l e k).2.1.preset = l.preset := by
  unfold changeSays
  split
  · split
    · simp
    · split <;> simp
  · simp

lemma resetLanguage_preserves (l : Langer) (e : Env) :
    (resetLanguage l e).2.1.initialized = l.initialized ∧
    (resetLanguage l e).2.1.disposed = l.disposed ∧
    (resetLanguage l e).2.1.availableLanguages = l.availableLanguages ∧
    (resetLanguage l e).2.1.data = l.data ∧
    (resetLanguage l e).2.1.hasRecorder = l.hasRecorder ∧
    (resetLanguage l e).2.1.preset = l.preset := by
  unfold resetLanguage
  split
  next => simp
  next avail ha =>
    split
    next => simp
    next lang hres =>
      split
      next hmem =>
        split
        next u l3 e3 heq =>
          have hp := changeSays_preserves l e lang
          rw [heq] at hp
          simpa using hp
        next err l3 e3 heq =>
          have hp := changeSays_preserves l e lang
          rw [heq] at hp
          simpa using hp
      next => simp

lemma resetDrop_preserves (l : Langer) (e : Env) :
    (resetDrop l e).2.1.initialized = l.initialized ∧
    (resetDrop l e).2.1.disposed = l.disposed ∧
    (resetDrop l e).2.1.availableLanguages = l.availableLanguages ∧
    (resetDrop l e).2.1.data = l.data ∧
    (resetDrop l e).2.1.hasRecorder = l.hasRecorder ∧
    (resetDrop l e).2.1.preset = l.preset := by
  unfold resetDrop
  split
  next s l3 e3 heq =>
    have hp := resetLanguage_preserves l e
    rw [heq] at hp
    simpa using hp
  next err l3 e3 heq =>
    have hp := resetLanguage_preserves l e
    rw [heq] at hp
    simpa using hp

lemma recordedOrReset_preserves (l : Langer) (e : Env) :
    (recordedOrReset l e).2.1.initialized = l.initialized ∧
    (recordedOrReset l e).2.1.disposed = l.disposed ∧
    (recordedOrReset l e).2.1.availableLanguages = l.availableLanguages ∧
    (recordedOrReset l e).2.1.data = l.data ∧
    (recordedOrReset l e).2.1.hasRecorder = l.hasRecorder ∧
    (recordedOrReset l e).2.1.preset = l.preset := by
  unfold recordedOrReset
  split
  next =>
    split
    next => simp
    next =>
      split
      next s hs =>
        split
        next => exact resetDrop_preserves l e
        next => exact changeSays_preserves l e s
      next => exact resetDrop_preserves l e
  next => simp

lemma internalUpdate_preserves (l : Langer) (e : Env) (d : Dict) (r : Bool) :
    (internalUpdate l e d r).2.1.initialized = l.initialized ∧
    (internalUpdate l e d r).2.1.disposed = l.disposed ∧
    (internalUpdate l e d r).2.1.hasRecorder = l.hasRecorder ∧
    (internalUpdate l e d r).2.1.preset = l.preset := by
  unfold internalUpdate
  split
  next => simp
  next =>
    split
    next =>
      have hp := resetDrop_preserves (withData l d) e
      exact ⟨hp.1, hp.2.1, hp.2.2.2.2.1, hp.2.2.2.2.2⟩
    next =>
      split
      next s hcur =>
        split
        next =>
          have hp := recordedOrReset_preserves (withData l d) e
          exact ⟨hp.1, hp.2.1, hp.2.2.2.2.1, hp.2.2.2.2.2⟩
        next =>
          have hp := changeSays_preserves (withData l d) e s
          exact ⟨hp.1, hp.2.1, hp.2.2.2.2.1, hp.2.2.2.2.2⟩
      next hcur =>
        have hp := recordedOrReset_preserves (withData l d) e
        exact ⟨hp.1, hp.2.1, hp.2.2.2.2.1, hp.2.2.2.2.2⟩

lemma speak_preserves (l : Langer) (e : Env) (k : String) :
    (speak l e k).2.1.initialized = l.initialized ∧
    (speak l e k).2.1.disposed = l.disposed := by
  unfold speak
  split
  next => simp
  next avail ha =>
    split
    next =>
      have hp := changeSays_preserves l e k
      exact ⟨hp.1, hp.2.1⟩
    next => simp

lemma update_preserves (l : Langer) (e : Env) (d : Dict) (r : Bool) :
    (update l e d r).2.1.initialized = l.initialized ∧
    (update l e d r).2.1.disposed = l.disposed := by
  unfold update
  split
  next => simp
  next =>
    have hp := internalUpdate_preserves l e d r
    exact ⟨hp.1, hp.2.1⟩

lemma initializeFn_mono (l : Langer) (e : Env) (d : Dict) (r : Bool) :
    ((initializeFn l e d r).2.1.initialized = true ∨
      (initializeFn l e d r).2.1.initialized = l.initialized) ∧
    (initializeFn l e d r).2.1.disposed = l.disposed := by
  unfold initializeFn
  split
  next => simp
  next =>
    split
    next u3 l3 e3 heq =>
      have hp := internalUpdate_preserves l e d r
      rw [heq] at hp
      exact ⟨Or.inl rfl, by simpa using hp.2.1⟩
    next err l3 e3 heq =>
      have hp := internalUpdate_preserves l e d r
      rw [heq] at hp
      exact ⟨Or.inr (by simpa using hp.1), by simpa using hp.2.1⟩

/-! ## The CurrentLanguage-in-AvailableLanguages invariant (claim C1) -/

/-- CurrentLanguage is a member of AvailableLanguages (when both are set). -/
def speakingInAvailable (l : Langer) : Prop :=
  ∀ s avail, l.currLanguage = some s → l.availableLanguages = some avail →
    s ∈ avail

lemma changeSays_ok_inAvail {lw : Langer} {e : Env} {s : String} {u : Unit}
    {l2 : Langer} {e2 : Env}
    (h : changeSays lw e s = (.ok u, l2, e2))
    (hmem : ∀ avail, lw.availableLanguages = some avail → s ∈ avail) :
    speakingInAvailable l2 := by
  obtain ⟨-, -, d, -, hl2, -⟩ := changeSays_ok_inv h
  subst hl2
  intro t avail ht hav
  injection ht with ht
  subst ht
  exact hmem avail hav

lemma resetLanguage_ok_inAvail {l : Langer} {e : Env} {s : String}
    {l2 : Langer} {e2 : Env}
    (h : resetLanguage l e = (.ok s, l2, e2)) : speakingInAvailable l2 := by
  obtain ⟨avail, ha, hmem, hcs⟩ := resetLanguage_ok_inv h
  refine changeSays_ok_inAvail hcs (fun avail2 ha2 => ?_)
  have h2 := ha.symm.trans ha2
  injection h2 with h2
  exact h2 ▸ hmem

lemma internalUpdate_reset_ok_inAvail {l : Langer} {e : Env} {d : Dict}
    {u : Unit} {l2 : Langer} {e2 : Env}
    (h : internalUpdate l e d true = (.ok u, l2, e2)) :
    speakingInAvailable l2 := by
  obtain ⟨-, hcase⟩ := internalUpdate_ok_inv h
  rcases hcase with ⟨s, hreset⟩ | ⟨hf, -⟩ | ⟨hf, -⟩
  · exact resetLanguage_ok_inAvail hreset
  · exact Bool.noConfusion hf
  · exact Bool.noConfusion hf

lemma internalUpdate_ok_inAvail {l : Langer} {e : Env} {d : Dict} {r : Bool}
    {u : Unit} {l2 : Langer} {e2 : Env}
    (h : internalUpdate l e d r = (.ok u, l2, e2))
    (hcurr : ∀ s, l.currLanguage = some s → s ∈ d.keys)
    (hstore : ∀ s, e.store = some s → s ∈ d.keys) :
    speakingInAvailable l2 := by
  obtain ⟨-, hcase⟩ := internalUpdate_ok_inv h
  rcases hcase with ⟨s, hreset⟩ | ⟨-, s, hcur, hcs⟩ | ⟨-, s, hst, hcs⟩
  · exact resetLanguage_ok_inAvail hreset
  · refine changeSays_ok_inAvail hcs (fun avail2 ha2 => ?_)
    have h2 : some d.keys = some avail2 := ha2
    injection h2 with h2
    exact h2 ▸ hcurr s hcur
  · refine changeSays_ok_inAvail hcs (fun avail2 ha2 => ?_)
    have h2 : some d.keys = some avail2 := ha2
    injection h2 with h2
    exact h2 ▸ hstore s hst

lemma speakingInAvailable_markInit {l3 : Langer}
    (h : speakingInAvailable l3) :
    speakingInAvailable { l3 with initialized := true } := by
  intro t avail ht hav
  exact h t avail ht hav

/-- C1 (amended): the invariant CurrentLanguage ∈ AvailableLanguages holds
after every successful `speak` and `resetLanguage`, and after every
successful `initialize`/`update` with `forceReset`; after an
`initialize`/`update` without `forceReset` it holds provided every key the
call can reuse — the previously active CurrentLanguage and the Recorder's
remembered key — is a member of the new dictionary's key set.  (The code
never validates those reused keys, so without that proviso the invariant
can be broken, as the counterexample shows.) -/
theorem C1_speaking_invariant :
    (∀ (l : Langer) (e : Env) (k : String) (u : Unit) (l2 : Langer) (e2 : Env),
      speak l e k = (.ok u, l2, e2) → speakingInAvailable l2) ∧
    (∀ (l : Langer) (e : Env) (s : String) (l2 : Langer) (e2 : Env),
      resetLanguage l e = (.ok s, l2, e2) → speakingInAvailable l2) ∧
    (∀ (l : Langer) (e : Env) (d : Dict) (u : Unit) (l2 : Langer) (e2 : Env),
      update l e d true = (.ok u, l2, e2) → speakingInAvailable l2) ∧
    (∀ (l : Langer) (e : Env) (d : Dict) (u : Unit) (l2 : Langer) (e2 : Env),
      initializeFn l e d true = (.ok u, l2, e2) → speakingInAvailable l2) ∧
    (∀ (l : Langer) (e : Env) (d : Dict) (u : Unit) (l2 : Langer) (e2 : Env),
      (∀ s, l.currLanguage = some s → s ∈ d.keys) →
      (∀ s, e.store = some s → s ∈ d.keys) →
      update l e d false = (.ok u, l2, e2) → speakingInAvailable l2) ∧
    (∀ (l : Langer) (e : Env) (d : Dict) (u : Unit) (l2 : Langer) (e2 : Env),
      (∀ s, l.currLanguage = some s → s ∈ d.keys) →
      (∀ s, e.store = some s → s ∈ d.keys) →
      initializeFn l e d false = (.ok u, l2, e2) → speakingInAvailable l2) := by
  refine ⟨?_, ?_, ?_, ?_, ?_, ?_⟩
  · intro l e k u l2 e2 h
    obtain ⟨avail, ha, hk, hcs⟩ := speak_ok_inv h
    refine changeSays_ok_inAvail hcs (fun avail2 ha2 => ?_)
    have h2 := ha.symm.trans ha2
    injection h2 with h2
    exact h2 ▸ hk
  · intro l e s l2 e2 h
    exact resetLanguage_ok_inAvail h
  · intro l e d u l2 e2 h
    exact internalUpdate_reset_ok_inAvail (update_ok_inv h).2.2
  · intro l e d u l2 e2 h
    obtain ⟨-, l3, hi, hl2⟩ := initializeFn_ok_inv h
    subst hl2
    exact speakingInAvailable_markInit (internalUpdate_reset_ok_inAvail hi)
  · intro l e d u l2 e2 hcurr hstore h
    exact internalUpdate_ok_inAvail (update_ok_inv h).2.2 hcurr hstore
  · intro l e d u l2 e2 hcurr hstore h
    obtain ⟨-, l3, hi, hl2⟩ := initializeFn_ok_inv h
    subst hl2
    exact speakingInAvailable_markInit
      (internalUpdate_ok_inAvail hi hcurr hstore)

theorem C1_speaking_invariant_witness :
    speakingInAvailable (speak lEnZh env0 "en").2.1 :=
  C1_speaking_invariant.1 lEnZh env0 "en" ()
    (speak lEnZh env0 "en").2.1 (speak lEnZh env0 "en").2.2 rfl

/-- Environment after the initialization that produced `lEnZh` (the store
remembers `zh`). -/
def envZh : Env := (initializeFn (mkLanger defaultPreset) env0 dEnZh false).2.2

/-- Result of updating the `zh`-speaking instance with a dictionary whose
only key is `en`. -/
def c1Res : Except LangErr Unit × Langer × Env := update lEnZh envZh dEn false

/-- C1 counterexample: updating the initialized, non-disposed instance that
speaks `zh` with a dictionary containing only `en` succeeds, and leaves
`speaking = zh` while the available languages are `[en]` — CurrentLanguage
is not a member of AvailableLanguages after a successful `update`. -/
theorem C1_counterexample :
    c1Res.1 = .ok () ∧
    c1Res.2.1.initialized = true ∧ c1Res.2.1.disposed = false ∧
    speaking c1Res.2.1 = .ok "zh" ∧
    availableLanguagesGet c1Res.2.1 = .ok ["en"] ∧
    "zh" ∉ (["en"] : List String) :=
  ⟨rfl, rfl, rfl, rfl, rfl, by decide⟩

/-! ## `update` language retention (claim C4) -/

/-- C4 (amended): on an initialized, non-disposed instance, `update`
without `forceReset` always keeps the (truthy) previously active
CurrentLanguage — whether or not that key still exists in the new
dictionary — and re-reads ActiveTranslations from the new dictionary at
that key (`undefined` when absent); `update` with `forceReset` resolves a
fresh language via the PresetPolicy, which is then a member of the new key
set.  The claim's "otherwise (key absent) resolve via the PresetPolicy"
branch does not exist in the code. -/
theorem C4_update_retention :
    (∀ (l : Langer) (e : Env) (d : Dict) (s : String) (u : Unit)
        (l2 : Langer) (e2 : Env),
      l.currLanguage = some s → (s == "") = false →
      update l e d false = (.ok u, l2, e2) →
      l2.currLanguage = some s ∧ l2.saysVal = d.get s) ∧
    (∀ (l : Langer) (e : Env) (d : Dict) (u : Unit) (l2 : Langer) (e2 : Env)
        (s : String),
      update l e d true = (.ok u, l2, e2) → l2.currLanguage = some s →
      s ∈ d.keys) := by
  constructor
  · intro l e d s u l2 e2 hcur hs0 h
    obtain ⟨-, -, hi⟩ := update_ok_inv h
    have hne : d.keys.isEmpty = false := (internalUpdate_ok_inv hi).1
    rw [internalUpdate_eq_curr hne hcur hs0] at hi
    obtain ⟨-, -, d2, hd2, hl2, -⟩ := changeSays_ok_inv hi
    have hdd : d = d2 := by injection hd2
    subst hdd
    subst hl2
    exact ⟨rfl, rfl⟩
  · intro l e d u l2 e2 s h hcur2
    obtain ⟨-, -, hi⟩ := update_ok_inv h
    obtain ⟨-, hcase⟩ := internalUpdate_ok_inv hi
    rcases hcase with ⟨t, hreset⟩ | ⟨hf, -⟩ | ⟨hf, -⟩
    · obtain ⟨avail, ha, hmem, hcs⟩ := resetLanguage_ok_inv hreset
      obtain ⟨-, -, d2, -, hl2, -⟩ := changeSays_ok_inv hcs
      subst hl2
      injection hcur2 with hts
      subst hts
      have h2 : some d.keys = some avail := ha
      injection h2 with h2
      exact h2 ▸ hmem
    · exact Bool.noConfusion hf
    · exact Bool.noConfusion hf

theorem C4_update_retention_witness :
    (update lEnZh envZh dEnZh false).2.1.currLanguage = some "zh" ∧
    (update lEnZh envZh dEnZh false).2.1.saysVal = dEnZh.get "zh" :=
  C4_update_retention.1 lEnZh envZh dEnZh "zh" ()
    (update lEnZh envZh dEnZh false).2.1
    (update lEnZh envZh dEnZh false).2.2 rfl rfl rfl

/-- Initialization of an instance with fixed preset `en` in an environment
remembering `zh` (it restores the remembered `zh`). -/
def c4Init : Except LangErr Unit × Langer × Env :=
  initializeFn (mkLanger (.fixed "en")) { env0 with store := some "zh" }
    dEnZh false

/-- Update of that instance with a dictionary that lost the `zh` key. -/
def c4Res : Except LangErr Unit × Langer × Env :=
  update c4Init.2.1 c4Init.2.2 dEn false

/-- C4 counterexample: the instance speaks `zh` and its PresetPolicy is the
fixed key `en`; updating with a dictionary whose only key is `en` (so the
active key is gone) succeeds but keeps speaking `zh` instead of resolving
a fresh language via the PresetPolicy as the claim states. -/
theorem C4_counterexample :
    c4Res.1 = .ok () ∧
    c4Res.2.1.preset = some (.fixed "en") ∧
    "zh" ∉ dEn.keys ∧
    speaking c4Res.2.1 = .ok "zh" ∧
    speaking c4Res.2.1 ≠ .ok "en" :=
  ⟨rfl, rfl, by decide, rfl, by decide⟩

/-! ## Failed `initialize` (claim C3) -/

/-- C3 (amended): a failed `initialize` always leaves the `initialized`
flag unchanged (false for a previously uninitialized instance), and a
failure at the empty-dictionary validation leaves every accessor failing
as before the call; but for failure modes after key derivation (recorder
failure, preset resolution failure, preset key unavailable) the partially
loaded state is observable: `availableLanguages` already returns the new
dictionary's key list even though `initialized` is still false. -/
theorem C3_initialize_failure :
    (∀ (l : Langer) (e : Env) (d : Dict) (r : Bool) (err : LangErr)
        (l2 : Langer) (e2 : Env),
      initializeFn l e d r = (.error err, l2, e2) →
      l2.initialized = l.initialized) ∧
    (∀ (p : Preset) (e : Env) (r : Bool),
      (initializeFn (mkLanger p) e ([] : Dict) r).1 =
        .error .emptyDictionary ∧
      availableLanguagesGet (initializeFn (mkLanger p) e ([] : Dict) r).2.1 =
        .error .notReady ∧
      speaking (initializeFn (mkLanger p) e ([] : Dict) r).2.1 =
        .error .notReady ∧
      saysGet (initializeFn (mkLanger p) e ([] : Dict) r).2.1 =
        .error .notReady ∧
      (initializeFn (mkLanger p) e ([] : Dict) r).2.1.initialized = false) ∧
    (∀ (e : Env) (d : Dict) (q : String),
      q ∉ d.keys → d.keys.isEmpty = false → e.getFails = false →
      e.store = none →
      (initializeFn (mkLanger (.fixed q)) e d false).1 =
        .error (.presetUnavailable q d.keys) ∧
      availableLanguagesGet
        (initializeFn (mkLanger (.fixed q)) e d false).2.1 = .ok d.keys) := by
  refine ⟨?_, ?_, ?_⟩
  · intro l e d r err l2 e2 h
    unfold initializeFn at h
    split at h
    next =>
      injection h with h1 h2
      injection h2 with h2 h3
      subst h2
      rfl
    next =>
      split at h
      next => exact Except.noConfusion (congrArg Prod.fst h)
      next err3 l3 e3 heq =>
        injection h with h1 h2
        injection h2 with h2 h3
        subst h2
        have hp := internalUpdate_preserves l e d r
        rw [heq] at hp
        simpa using hp.1
  · intro p e r
    have h1 : initializeFn (mkLanger p) e ([] : Dict) r =
        (.error .emptyDictionary,
          { mkLanger p with data := some ([] : Dict) }, e) := by
      unfold initializeFn
      rw [if_neg (by simp [mkLanger]),
        internalUpdate_eq_empty (d := ([] : Dict)) rfl]
    exact ⟨by rw [h1], by rw [h1]; rfl, by rw [h1]; rfl, by rw [h1]; rfl,
      by rw [h1]; rfl⟩
  · intro e d q hq hne hget hstore
    have h2 : initializeFn (mkLanger (.fixed q)) e d false =
        (.error (.presetUnavailable q d.keys),
          withData (mkLanger (.fixed q)) d, e) := by
      unfold initializeFn
      rw [if_neg (by simp [mkLanger]), internalUpdate_eq_recorded hne rfl]
      simp [recordedOrReset, resetDrop, resetLanguage, resolvePreset,
        withData, mkLanger, hget, hstore, hq]
    exact ⟨by rw [h2], by rw [h2]; exact availableLanguagesGet_eq rfl⟩

theorem C3_initialize_failure_witness :
    ((initializeFn (mkLanger (.fixed "ja")) env0 dEnZh false).2.1.initialized =
      (mkLanger (.fixed "ja")).initialized) ∧
    ((initializeFn (mkLanger (.fixed "ja")) env0 dEnZh false).1 =
      .error (.presetUnavailable "ja" dEnZh.keys) ∧
     availableLanguagesGet
       (initializeFn (mkLanger (.fixed "ja")) env0 dEnZh false).2.1 =
       .ok dEnZh.keys) :=
  ⟨C3_initialize_failure.1 (mkLanger (.fixed "ja")) env0 dEnZh false
      (.presetUnavailable "ja" ["en", "zh"])
      (initializeFn (mkLanger (.fixed "ja")) env0 dEnZh false).2.1
      (initializeFn (mkLanger (.fixed "ja")) env0 dEnZh false).2.2 rfl,
    C3_initialize_failure.2.2 env0 dEnZh "ja" (by decide) rfl rfl rfl⟩

/-- Result of initializing a fresh instance whose fixed preset `ja` is not
in the dictionary. -/
def c3Res : Except LangErr Unit × Langer × Env :=
  initializeFn (mkLanger (.fixed "ja")) env0 dEnZh false

/-- C3 counterexample: an `initialize` that fails because the preset key is
unavailable leaves `initialized = false`, yet the `availableLanguages`
accessor afterwards returns the new dictionary's key list instead of
failing as before the call — partial state is observable. -/
theorem C3_counterexample :
    c3Res.1 = .error (.presetUnavailable "ja" ["en", "zh"]) ∧
    c3Res.2.1.initialized = false ∧
    availableLanguagesGet c3Res.2.1 = .ok ["en", "zh"] ∧
    availableLanguagesGet c3Res.2.1 ≠ .error .notReady :=
  ⟨rfl, rfl, rfl, by decide⟩

/-! ## Remember / reset dispatch through the recorder (claim C8) -/

/-- C8: a successful `speak` writes the spoken key to the recorder's
backing store; a fresh instance initialized without `forceReset` against a
store remembering a (truthy) key restores that key as `speaking`; and
`initialize` with `forceReset = true` ignores the remembered key and
resolves through the PresetPolicy (here a fixed key distinct from the
remembered one). -/
theorem C8_recorder_roundtrip :
    (∀ (l : Langer) (e : Env) (k : String) (u : Unit) (l2 : Langer) (e2 : Env),
      speak l e k = (.ok u, l2, e2) → e2.store = some k) ∧
    (∀ (p : Preset) (e : Env) (d : Dict) (k : String),
      e.store = some k → (k == "") = false → e.getFails = false →
      e.setFails = false → k ∈ d.keys →
      (initializeFn (mkLanger p) e d false).1 = .ok () ∧
      speaking (initializeFn (mkLanger p) e d false).2.1 = .ok k) ∧
    (∀ (e : Env) (d : Dict) (q k : String),
      q ∈ d.keys → (q == "") = false → e.setFails = false →
      e.store = some k → k ≠ q →
      (initializeFn (mkLanger (.fixed q)) e d true).1 = .ok () ∧
      speaking (initializeFn (mkLanger (.fixed q)) e d true).2.1 = .ok q) := by
  refine ⟨?_, ?_, ?_⟩
  · intro l e k u l2 e2 h
    obtain ⟨avail, -, -, hcs⟩ := speak_ok_inv h
    obtain ⟨-, -, d, -, -, he2⟩ := changeSays_ok_inv hcs
    subst he2
    rfl
  · intro p e d k hst hk0 hget hset hk
    have hne := keys_ne_empty hk
    have h1 : initializeFn (mkLanger p) e d false =
        (.ok (),
          { withData (mkLanger p) d with
              currLanguage := some k, saysVal := d.get k, initialized := true },
          { e with store := some k }) := by
      unfold initializeFn
      rw [if_neg (by simp [mkLanger]), internalUpdate_eq_recorded hne rfl]
      have e2 : recordedOrReset (withData (mkLanger p) d) e =
          changeSays (withData (mkLanger p) d) e k := by
        simp [recordedOrReset, withData, mkLanger, hget, hst, hk0]
      rw [e2, changeSays_eq_ok (d := d) k rfl hset rfl]
    exact ⟨by rw [h1], by rw [h1]; exact speaking_eq rfl hk0⟩
  · intro e d q k hq hq0 hset hst hkq
    have hne := keys_ne_empty hq
    have h1 : initializeFn (mkLanger (.fixed q)) e d true =
        (.ok (),
          { withData (mkLanger (.fixed q)) d with
              currLanguage := some q, saysVal := d.get q, initialized := true },
          { e with store := some q }) := by
      unfold initializeFn
      rw [if_neg (by simp [mkLanger]), internalUpdate_eq_reset hne]
      have e2 : resetLanguage (withData (mkLanger (.fixed q)) d) e =
          (.ok q,
            { withData (mkLanger (.fixed q)) d with
                currLanguage := some q, saysVal := d.get q },
            { e with store := some q }) := by
        unfold resetLanguage
        simp only [withData, mkLanger, resolvePreset]
        rw [if_pos (by simpa using hq), changeSays_eq_ok (d := d) q rfl hset rfl]
      have e3 : resetDrop (withData (mkLanger (.fixed q)) d) e =
          (.ok (),
            { withData (mkLanger (.fixed q)) d with
                currLanguage := some q, saysVal := d.get q },
            { e with store := some q }) := by
        unfold resetDrop
        rw [e2]
      rw [e3]
    exact ⟨by rw [h1], by rw [h1]; exact speaking_eq rfl hq0⟩

theorem C8_recorder_roundtrip_witness :
    ((initializeFn (mkLanger defaultPreset) { env0 with store := some "zh" }
        dEnZh false).1 = .ok () ∧
      speaking (initializeFn (mkLanger defaultPreset)
        { env0 with store := some "zh" } dEnZh false).2.1 = .ok "zh") ∧
    ((initializeFn (mkLanger (.fixed "en")) { env0 with store := some "zh" }
        dEnZh true).1 = .ok () ∧
      speaking (initializeFn (mkLanger (.fixed "en"))
        { env0 with store := some "zh" } dEnZh true).2.1 = .ok "en") :=
  ⟨C8_recorder_roundtrip.2.1 defaultPreset { env0 with store := some "zh" }
      dEnZh "zh" rfl rfl rfl rfl (by decide),
    C8_recorder_roundtrip.2.2 { env0 with store := some "zh" } dEnZh "en" "zh"
      (by decide) rfl rfl rfl (by decide)⟩

/-! ## Failed `update` with an empty dictionary (claim C10) -/

/-- C10: on an initialized, non-disposed instance, `update` with the empty
dictionary throws the empty-dictionary error only after the internal
dictionary reference has been replaced: afterwards `availableLanguages`
still returns the previous key list while lookups use the new empty
dictionary, so a subsequent `speak` of a previously available key succeeds
and stores an absent payload, after which `says` fails although
`initialized` is still true. -/
theorem C10_update_empty (l : Langer) (e : Env) (avail : List String)
    (k : String)
    (hinit : l.initialized = true) (hdisp : l.disposed = false)
    (ha : l.availableLanguages = some avail) (hk : k ∈ avail)
    (hr : l.hasRecorder = true) (hset : e.setFails = false) :
    (update l e ([] : Dict) false).1 = .error .emptyDictionary ∧
    (update l e ([] : Dict) false).2.1.data = some ([] : Dict) ∧
    availableLanguagesGet (update l e ([] : Dict) false).2.1 = .ok avail ∧
    (speak (update l e ([] : Dict) false).2.1
      (update l e ([] : Dict) false).2.2 k).1 = .ok () ∧
    saysGet (speak (update l e ([] : Dict) false).2.1
      (update l e ([] : Dict) false).2.2 k).2.1 = .error .notReady ∧
    (speak (update l e ([] : Dict) false).2.1
      (update l e ([] : Dict) false).2.2 k).2.1.initialized = true := by
  have hu : update l e ([] : Dict) false =
      (.error .emptyDictionary, { l with data := some ([] : Dict) }, e) := by
    unfold update
    rw [if_neg (by simp [hinit, hdisp])]
    exact internalUpdate_eq_empty (d := ([] : Dict)) rfl
  have hsp : speak { l with data := some ([] : Dict) } e k =
      (.ok (),
        { l with
            data := some ([] : Dict), currLanguage := some k,
            saysVal := Dict.get [] k },
        { e with store := some k }) :=
    @speak_eq_ok { l with data := some ([] : Dict) } e k avail ([] : Dict)
      ha hk hr hset rfl
  refine ⟨by rw [hu], by rw [hu], ?_, ?_, ?_, ?_⟩
  · rw [hu]
    exact availableLanguagesGet_eq ha
  · rw [hu, hsp]
  · rw [hu, hsp]
    exact saysGet_none rfl
  · rw [hu, hsp]
    exact hinit

theorem C10_update_empty_witness :
    (update lEnZh envZh ([] : Dict) false).1 = .error .emptyDictionary ∧
    (update lEnZh envZh ([] : Dict) false).2.1.data = some ([] : Dict) ∧
    availableLanguagesGet (update lEnZh envZh ([] : Dict) false).2.1 =
      .ok ["en", "zh"] ∧
    (speak (update lEnZh envZh ([] : Dict) false).2.1
      (update lEnZh envZh ([] : Dict) false).2.2 "en").1 = .ok () ∧
    saysGet (speak (update lEnZh envZh ([] : Dict) false).2.1
      (update lEnZh envZh ([] : Dict) false).2.2 "en").2.1 =
      .error .notReady ∧
    (speak (update lEnZh envZh ([] : Dict) false).2.1
      (update lEnZh envZh ([] : Dict) false).2.2 "en").2.1.initialized =
      true :=
  C10_update_empty lEnZh envZh ["en", "zh"] "en" rfl rfl rfl (by decide)
    rfl rfl

/-! ## Lifecycle flags and disposal (claim C6) -/

/-- One mutating operation of the public API (result values are discarded;
the accessors do not mutate state). -/
inductive Op where
  | initOp (d : Dict) (r : Bool)
  | updateOp (d : Dict) (r : Bool)
  | speakOp (k : String)
  | resetOp
  | disposeOp

/-- The state and environment after one operation (also after a failed
one: a thrown error keeps whatever was already written). -/
def step (l : Langer) (e : Env) : Op → Langer × Env
  | .initOp d r => ((initializeFn l e d r).2.1, (initializeFn l e d r).2.2)
  | .updateOp d r => ((update l e d r).2.1, (update l e d r).2.2)
  | .speakOp k => ((speak l e k).2.1, (speak l e k).2.2)
  | .resetOp => ((resetLanguage l e).2.1, (resetLanguage l e).2.2)
  | .disposeOp => ((dispose l).2, e)

/-- The state and environment after a sequence of operations. -/
def run (l : Langer) (e : Env) : List Op → Langer × Env
  | [] => (l, e)
  | op :: ops => run (step l e op).1 (step l e op).2 ops

lemma step_mono (l : Langer) (e : Env) (op : Op) :
    (l.initialized = true → (step l e op).1.initialized = true) ∧
    (l.disposed = true → (step l e op).1.disposed = true) := by
  cases op with
  | initOp d r =>
      have h := initializeFn_mono l e d r
      constructor
      · intro hi
        rcases h.1 with h1 | h1
        · exact h1
        · rw [show (step l e (.initOp d r)).1.initialized =
            (initializeFn l e d r).2.1.initialized from rfl, h1]
          exact hi
      · intro hd
        rw [show (step l e (.initOp d r)).1.disposed =
          (initializeFn l e d r).2.1.disposed from rfl, h.2]
        exact hd
  | updateOp d r =>
      have h := update_preserves l e d r
      exact ⟨fun hi => by
          rw [show (step l e (.updateOp d r)).1.initialized =
            (update l e d r).2.1.initialized from rfl, h.1]
          exact hi,
        fun hd => by
          rw [show (step l e (.updateOp d r)).1.disposed =
            (update l e d r).2.1.disposed from rfl, h.2]
          exact hd⟩
  | speakOp k =>
      have h := speak_preserves l e k
      exact ⟨fun hi => by
          rw [show (step l e (.speakOp k)).1.initialized =
            (speak l e k).2.1.initialized from rfl, h.1]
          exact hi,
        fun hd => by
          rw [show (step l e (.speakOp k)).1.disposed =
            (speak l e k).2.1.disposed from rfl, h.2]
          exact hd⟩
  | resetOp =>
      have h := resetLanguage_preserves l e
      exact ⟨fun hi => by
          rw [show (step l e .resetOp).1.initialized =
            (resetLanguage l e).2.1.initialized from rfl, h.1]
          exact hi,
        fun hd => by
          rw [show (step l e .resetOp).1.disposed =
            (resetLanguage l e).2.1.disposed from rfl, h.2.1]
          exact hd⟩
  | disposeOp =>
      constructor
      · intro hi
        show (dispose l).2.initialized = true
        unfold dispose
        split <;> simpa using hi
      · intro hd
        show (dispose l).2.disposed = true
        unfold dispose
        split <;> simp [hd]

lemma run_mono : ∀ (ops : List Op) (l : Langer) (e : Env),
    (l.initialized = true → (run l e ops).1.initialized = true) ∧
    (l.disposed = true → (run l e ops).1.disposed = true) := by
  intro ops
  induction ops with
  | nil => exact fun l e => ⟨fun h => h, fun h => h⟩
  | cons op ops ih =>
      intro l e
      have hs := step_mono l e op
      have hr := ih (step l e op).1 (step l e op).2
      exact ⟨fun h => hr.1 (hs.1 h), fun h => hr.2 (hs.2 h)⟩

/-- C6 (amended): over every sequence of operations the `initialized` and
`disposed` flags are monotone (never revert to false); after a successful
`dispose`, the three accessors and `speak`/`resetLanguage`/`update` all
fail with the not-ready error and a second `dispose` fails with the
already-disposed error, while `initialize` on a previously initialized
instance fails with the *already-initialized* error (not the not-ready
error the claim states — `dispose` does not clear `_initialized`). -/
theorem C6_lifecycle :
    (∀ (l : Langer) (e : Env) (ops : List Op),
      (l.initialized = true → (run l e ops).1.initialized = true) ∧
      (l.disposed = true → (run l e ops).1.disposed = true)) ∧
    (∀ (l l2 : Langer) (u : Unit), dispose l = (.ok u, l2) →
      availableLanguagesGet l2 = .error .notReady ∧
      speaking l2 = .error .notReady ∧
      saysGet l2 = .error .notReady ∧
      (∀ (e : Env) (k : String), (speak l2 e k).1 = .error .notReady) ∧
      (∀ e : Env, (resetLanguage l2 e).1 = .error .notReady) ∧
      (∀ (e : Env) (d : Dict) (r : Bool),
        (update l2 e d r).1 = .error .notReady) ∧
      (dispose l2).1 = .error .alreadyDisposed ∧
      (l.initialized = true → ∀ (e : Env) (d : Dict) (r : Bool),
        (initializeFn l2 e d r).1 = .error .alreadyInitialized)) := by
  constructor
  · exact fun l e ops => run_mono ops l e
  · intro l l2 u h
    unfold dispose at h
    split at h
    next => exact Except.noConfusion (congrArg Prod.fst h)
    next hd =>
      injection h with h1 h2
      subst h2
      refine ⟨rfl, rfl, rfl, fun e k => rfl, fun e => rfl, ?_, rfl, ?_⟩
      · intro e d r
        unfold update
        rw [if_pos (by simp)]
      · intro hi e d r
        simp [initializeFn, hi]

theorem C6_lifecycle_witness :
    ((run lEnZh env0 [Op.disposeOp, Op.updateOp dEnZh false]).1.initialized
        = true) ∧
    availableLanguagesGet (dispose lEnZh).2 = .error .notReady :=
  ⟨(C6_lifecycle.1 lEnZh env0 [Op.disposeOp, Op.updateOp dEnZh false]).1 rfl,
    (C6_lifecycle.2 lEnZh (dispose lEnZh).2 () rfl).1⟩

/-- The `zh`-speaking instance after disposal. -/
def c6Disposed : Langer := (dispose lEnZh).2

/-- C6 counterexample: `initialize` on a disposed (previously initialized)
instance fails with the already-initialized error, not the not-ready error
that the claim asserts for every mutating operation after `dispose`. -/
theorem C6_counterexample :
    c6Disposed.disposed = true ∧
    (initializeFn c6Disposed env0 dEnZh false).1 =
      .error .alreadyInitialized ∧
    (initializeFn c6Disposed env0 dEnZh false).1 ≠ .error .notReady :=
  ⟨rfl, rfl, by decide⟩

end Langer2Proof
